import Mathlib

/-!
# Verification of the study-together server (src/index.js)

A shallow embedding of the Express application in `src/index.js`: a thin HTTP
API over a MongoDB store with collections `assignments`, `reviews` and
`submittedAssignments`, plus Firebase token authentication.

Each route handler is translated into a Lean function from a request and a
database state to an outcome, the new database state, and the list of database
calls issued while handling the request.  JavaScript `undefined`/missing values
are modelled with `Option`; JS truthiness of a string-valued field (`!x`) is
the predicate `truthyS` (false exactly on `undefined`/absent and on `""`).
Dates (`new Date()`) are modelled as a natural-number clock in the context.
A database error is modelled by the context field `dbErr`: when it is
`some msg`, any attempted database call throws with message `msg`.
-/

/-- A JS value as stored in a `submittedAssignments` document: a string, a
`Date` (modelled as a natural-number timestamp) or `undefined`. -/
inductive Value where
  | str (s : String)
  | date (t : Nat)
  | undef
  deriving DecidableEq

/-- JS truthiness of an optional string field: `!x` is true exactly when `x`
is missing (`undefined`) or the empty string. -/
def truthyS : Option String → Bool
  | none => false
  | some s => !(s == "")

/-- `parseInt(q) || d` from `GET /reviews` and `GET /leaderboard`: the parsed
value when it is a nonzero number, otherwise the default `d` (`NaN` and `0`
are both falsy). `none` stands for an absent or non-numeric parameter. -/
def parseIntOr (d : Nat) : Option Nat → Nat
  | none => d
  | some n => if n == 0 then d else n

/-- A document of the `reviews` collection, as built by `POST /reviews`:
`{ name, image, email, text, createdAt: new Date() }`. -/
structure ReviewDoc where
  id : Nat
  name : Option String
  image : Option String
  email : Option String
  text : Option String
  createdAt : Nat
  deriving DecidableEq

/-- A document of the `assignments` collection.  The six fields written by
`PUT /assignments/:id` and the `creator` subdocument read by the delete route
and the leaderboard are explicit; every other field of the document lives in
`rest`, which no route ever touches. -/
structure AssignmentDoc where
  id : Nat
  title : Option String
  description : Option String
  marks : Option String
  thumbnail : Option String
  difficulty : Option String
  dueDate : Option String
  creatorEmail : Option String
  creatorName : Option String
  rest : List (String × Value)
  deriving DecidableEq

/-- A document of the `submittedAssignments` collection: an object kept as an
association list of fields (later bindings override earlier ones, as in a JS
object literal built by spread). -/
structure SubmissionDoc where
  id : Nat
  fields : List (String × Value)
  deriving DecidableEq

/-- Lookup in a JS-object association list; the LAST binding of a key wins,
matching `{...data, status: "pending"}` where the later key overrides. -/
def objGet (k : String) : List (String × Value) → Option Value
  | [] => none
  | (k', v) :: rest =>
    match objGet k rest with
    | some w => some w
    | none => if k' == k then some v else none

/-- The MongoDB database: the three collections the server uses. -/
structure DB where
  assignments : List AssignmentDoc
  reviews : List ReviewDoc
  submitted : List SubmissionDoc
  deriving DecidableEq

/-- The filter object built by `GET /assignments`: an optional equality
constraint on `difficulty` and an optional case-insensitive `$regex`
constraint on `title`. -/
structure AssignFilter where
  difficulty : Option String := none
  titleRegex : Option String := none
  deriving DecidableEq

/-- `GET /assignments` builds its filter from the query: `if (difficulty)`
adds an equality constraint, `if (search)` adds the title regex. -/
def buildFilter (difficulty search : Option String) : AssignFilter :=
  let f0 : AssignFilter := {}
  let f1 := if truthyS difficulty then { f0 with difficulty := difficulty } else f0
  if truthyS search then { f1 with titleRegex := search } else f1

/-- One database call, as issued by a route handler, with the query or
document it forwards to the store. -/
inductive DbCall where
  | findReviews (skip limit : Nat)
  | insertReview (r : ReviewDoc)
  | findAssignments (f : AssignFilter)
  | findOneAssignment (id : Nat)
  | insertAssignment (a : AssignmentDoc)
  | updateAssignment (id : Nat) (title description marks thumbnail difficulty dueDate : Option String)
  | deleteAssignment (id : Nat)
  | aggregateLeaderboard (skip limit : Nat)
  | findSubmittedByEmail (email : String)
  | insertSubmitted (s : SubmissionDoc)
  | updateSubmitted (id : Nat) (obtainedMarks feedback : Value) (markedAt : Nat)
  | findPendingSubmitted (excludeEmail : String)
  deriving DecidableEq

/-- The routes registered on the Express app in `src/index.js`. -/
inductive Route where
  | root
  | postReviews
  | getReviews
  | postAssignments
  | getAssignments
  | getAssignment
  | getLeaderboard
  | putAssignment
  | deleteAssignment
  | getSubmitted
  | postSubmitted
  | patchSubmitted
  | getPendingSubmitted
  deriving DecidableEq

/-- An HTTP response: status code, the message the body carries when there is
one, and the `insertedId` when the route reports one. -/
structure Resp where
  status : Nat
  message : Option String
  insertedId : Option Nat
  deriving DecidableEq

/-- What handling a request produces: either a response was sent, or an
error escaped the handler unhandled (no `try/catch` around an awaited call
that rejected). -/
inductive Outcome where
  | response (r : Resp)
  | escaped (msg : String)
  deriving DecidableEq

/-- An incoming HTTP request: the `Authorization` header, the `:id` route
parameter, the query parameters, and the body fields the routes read.
`bAssignment` is the whole body of `POST /assignments` and `bSubmitted` the
whole body of `POST /submitted-assignments`. -/
structure Request where
  authHeader : Option String
  paramId : Nat
  qDifficulty : Option String
  qSearch : Option String
  qEmail : Option String
  qLimit : Option Nat
  qPage : Option Nat
  bName : Option String
  bImage : Option String
  bEmail : Option String
  bText : Option String
  bTitle : Option String
  bDescription : Option String
  bMarks : Option String
  bThumbnail : Option String
  bDifficulty : Option String
  bDueDate : Option String
  bObtainedMarks : Option String
  bFeedback : Option String
  bAssignment : AssignmentDoc
  bSubmitted : List (String × Value)
  deriving DecidableEq

/-- Ambient context of one request: the current time (`new Date()`), the `_id`
the store would assign to an inserted document, the Firebase verifier
(`admin.auth().verifyIdToken`, returning the decoded user on success), and
whether a database call would throw (`some msg`) or succeed (`none`). -/
structure Ctx where
  now : Nat
  newId : Nat
  verify : String → Option String
  dbErr : Option String

/-- Result of the `verifyToken` middleware. -/
inductive Auth where
  | unauthorized
  | forbidden
  | ok (user : String)
  deriving DecidableEq

/-- Characters after the first space, as in `h.split(" ")` skipping index 0. -/
def charsAfterSpace : List Char → List Char
  | [] => []
  | c :: cs => if c == ' ' then cs else charsAfterSpace cs

/-- Characters before the next space: the rest of `split(" ")[1]`. -/
def charsBeforeSpace : List Char → List Char
  | [] => []
  | c :: cs => if c == ' ' then [] else c :: charsBeforeSpace cs

/-- `authHeader.split(" ")[1]`: the token between the first and second space
of the header (the header is known to start with `"Bearer "`). -/
def bearerToken (h : String) : String :=
  String.mk (charsBeforeSpace (charsAfterSpace h.toList))

/-- The `verifyToken` middleware: 401 when the header is missing or does not
start with `"Bearer "`, 403 when the token fails verification, otherwise the
decoded user. -/
def verifyToken (verify : String → Option String) (authHeader : Option String) : Auth :=
  match authHeader with
  | none => Auth.unauthorized
  | some h =>
    if "Bearer ".toList.isPrefixOf h.toList then
      match verify (bearerToken h) with
      | some u => Auth.ok u
      | none => Auth.forbidden
    else Auth.unauthorized

/-- Which routes are registered with the `verifyToken` middleware. -/
def requiresAuth : Route → Bool
  | Route.root => false
  | Route.postReviews => false
  | Route.getReviews => false
  | Route.postAssignments => true
  | Route.getAssignments => false
  | Route.getAssignment => false
  | Route.getLeaderboard => false
  | Route.putAssignment => true
  | Route.deleteAssignment => true
  | Route.getSubmitted => true
  | Route.postSubmitted => true
  | Route.patchSubmitted => true
  | Route.getPendingSubmitted => true

/-- `findOne({_id})` on the assignments collection: the first document with
the given id. -/
def findOneAssign (pid : Nat) (l : List AssignmentDoc) : Option AssignmentDoc :=
  l.find? (fun a => a.id == pid)

/-- `deleteOne({_id})`: remove the first document with the given id; returns
the new collection and the `deletedCount`. -/
def deleteOneAssign (pid : Nat) : List AssignmentDoc → List AssignmentDoc × Nat
  | [] => ([], 0)
  | a :: as =>
    if a.id == pid then (as, 1)
    else
      let r := deleteOneAssign pid as
      (a :: r.1, r.2)

/-- The `$set` of `PUT /assignments/:id` applied to a document: exactly the
six fields `title`, `description`, `marks`, `thumbnail`, `difficulty`,
`dueDate` are replaced by the body's values. -/
def applyPutSet (title description marks thumbnail difficulty dueDate : Option String)
    (d : AssignmentDoc) : AssignmentDoc :=
  { d with
    title := title
    description := description
    marks := marks
    thumbnail := thumbnail
    difficulty := difficulty
    dueDate := dueDate }

/-- `updateOne({_id}, u)` on the assignments collection: apply `f` to the
first document with the given id; returns the new collection and the
`modifiedCount` (0 when no document matches or the update changes nothing). -/
def updateOneAssign (pid : Nat) (f : AssignmentDoc → AssignmentDoc) :
    List AssignmentDoc → List AssignmentDoc × Nat
  | [] => ([], 0)
  | a :: as =>
    if a.id == pid then (f a :: as, if f a == a then 0 else 1)
    else
      let r := updateOneAssign pid f as
      (a :: r.1, r.2)

/-- `updateOne({_id}, u)` on the submittedAssignments collection: apply `f`
to the first document with the given id; returns the new collection and the
number of matched documents. -/
def updateOneSub (pid : Nat) (f : SubmissionDoc → SubmissionDoc) :
    List SubmissionDoc → List SubmissionDoc × Nat
  | [] => ([], 0)
  | s :: ss =>
    if s.id == pid then (f s :: ss, 1)
    else
      let r := updateOneSub pid f ss
      (s :: r.1, r.2)

/-- An optional string body field as the stored JS value (`undefined` when
absent). -/
def valOf : Option String → Value
  | none => Value.undef
  | some s => Value.str s

/-- The `$set` of `PATCH /submitted-assignments/:id` applied to a document:
`{ obtainedMarks, feedback, status: "completed", markedAt: new Date() }`. -/
def applyPatchSub (obtainedMarks feedback : Value) (markedAt : Nat)
    (d : SubmissionDoc) : SubmissionDoc :=
  { d with
    fields := d.fields ++
      [("obtainedMarks", obtainedMarks), ("feedback", feedback),
       ("status", Value.str "completed"), ("markedAt", Value.date markedAt)] }

/-- The document inserted by `POST /submitted-assignments`:
`{ ...data, status: "pending", submittedAt: new Date() }` — the `status` and
`submittedAt` keys come after the spread, so they override any homonymous
key of the body. -/
def mkSubmission (newId : Nat) (data : List (String × Value)) (now : Nat) : SubmissionDoc :=
  { id := newId
    fields := data ++ [("status", Value.str "pending"), ("submittedAt", Value.date now)] }

/-- The core of each route handler (after the `verifyToken` middleware, for
the routes that have it), translated line by line from `src/index.js`.
Returns the outcome, the new database and the list of database calls made. -/
def handleCore (ctx : Ctx) (route : Route) (req : Request) (db : DB) :
    Outcome × DB × List DbCall :=
  match route with
  | Route.root =>
    (Outcome.response ⟨200, some "Server is running", none⟩, db, [])
  | Route.postReviews =>
    if !truthyS req.bName || !truthyS req.bEmail || !truthyS req.bText then
      (Outcome.response ⟨400, some "Missing fields", none⟩, db, [])
    else
      let doc : ReviewDoc :=
        ⟨ctx.newId, req.bName, req.bImage, req.bEmail, req.bText, ctx.now⟩
      match ctx.dbErr with
      | some m => (Outcome.response ⟨500, some m, none⟩, db, [DbCall.insertReview doc])
      | none =>
        (Outcome.response ⟨201, some "Review added successfully", some ctx.newId⟩,
         { db with reviews := db.reviews ++ [doc] }, [DbCall.insertReview doc])
  | Route.getReviews =>
    let limit := parseIntOr 12 req.qLimit
    let page := parseIntOr 1 req.qPage
    let skip := (page - 1) * limit
    match ctx.dbErr with
    | some m => (Outcome.escaped m, db, [DbCall.findReviews skip limit])
    | none => (Outcome.response ⟨200, none, none⟩, db, [DbCall.findReviews skip limit])
  | Route.postAssignments =>
    let doc := { req.bAssignment with id := ctx.newId }
    match ctx.dbErr with
    | some m => (Outcome.response ⟨500, some m, none⟩, db, [DbCall.insertAssignment doc])
    | none =>
      (Outcome.response ⟨200, some "Assignment created successfully", some ctx.newId⟩,
       { db with assignments := db.assignments ++ [doc] }, [DbCall.insertAssignment doc])
  | Route.getAssignments =>
    let filter := buildFilter req.qDifficulty req.qSearch
    match ctx.dbErr with
    | some m => (Outcome.response ⟨500, some m, none⟩, db, [DbCall.findAssignments filter])
    | none => (Outcome.response ⟨200, none, none⟩, db, [DbCall.findAssignments filter])
  | Route.getAssignment =>
    match ctx.dbErr with
    | some m =>
      (Outcome.response ⟨500, some m, none⟩, db, [DbCall.findOneAssignment req.paramId])
    | none =>
      match findOneAssign req.paramId db.assignments with
      | none =>
        (Outcome.response ⟨404, some "Assignment not found", none⟩, db,
         [DbCall.findOneAssignment req.paramId])
      | some _ =>
        (Outcome.response ⟨200, none, none⟩, db, [DbCall.findOneAssignment req.paramId])
  | Route.getLeaderboard =>
    let page := parseIntOr 1 req.qPage
    let skip := (page - 1) * 10
    match ctx.dbErr with
    | some m => (Outcome.escaped m, db, [DbCall.aggregateLeaderboard skip 10])
    | none => (Outcome.response ⟨200, none, none⟩, db, [DbCall.aggregateLeaderboard skip 10])
  | Route.putAssignment =>
    let call := DbCall.updateAssignment req.paramId req.bTitle req.bDescription
      req.bMarks req.bThumbnail req.bDifficulty req.bDueDate
    match ctx.dbErr with
    | some m => (Outcome.response ⟨500, some m, none⟩, db, [call])
    | none =>
      let r := updateOneAssign req.paramId
        (applyPutSet req.bTitle req.bDescription req.bMarks req.bThumbnail
          req.bDifficulty req.bDueDate) db.assignments
      if r.2 > 0 then
        (Outcome.response ⟨200, some "Assignment updated successfully", none⟩,
         { db with assignments := r.1 }, [call])
      else
        (Outcome.response ⟨400, some "Nothing was updated", none⟩,
         { db with assignments := r.1 }, [call])
  | Route.deleteAssignment =>
    match ctx.dbErr with
    | some m =>
      (Outcome.response ⟨500, some m, none⟩, db, [DbCall.findOneAssignment req.paramId])
    | none =>
      match findOneAssign req.paramId db.assignments with
      | none =>
        (Outcome.response ⟨404, some "Assignment not found", none⟩, db,
         [DbCall.findOneAssignment req.paramId])
      | some assignment =>
        if assignment.creatorEmail != req.qEmail then
          (Outcome.response ⟨403, some "You are not authorized to delete this assignment.", none⟩,
           db, [DbCall.findOneAssignment req.paramId])
        else
          let r := deleteOneAssign req.paramId db.assignments
          if r.2 > 0 then
            (Outcome.response ⟨200, none, none⟩, { db with assignments := r.1 },
             [DbCall.findOneAssignment req.paramId, DbCall.deleteAssignment req.paramId])
          else
            (Outcome.response ⟨500, some "Delete failed internally.", none⟩,
             { db with assignments := r.1 },
             [DbCall.findOneAssignment req.paramId, DbCall.deleteAssignment req.paramId])
  | Route.getSubmitted =>
    match req.qEmail with
    | none => (Outcome.response ⟨400, some "Email is required", none⟩, db, [])
    | some email =>
      if email == "" then
        (Outcome.response ⟨400, some "Email is required", none⟩, db, [])
      else
        match ctx.dbErr with
        | some m =>
          (Outcome.response ⟨500, some m, none⟩, db, [DbCall.findSubmittedByEmail email])
        | none =>
          (Outcome.response ⟨200, none, none⟩, db, [DbCall.findSubmittedByEmail email])
  | Route.postSubmitted =>
    let doc := mkSubmission ctx.newId req.bSubmitted ctx.now
    match ctx.dbErr with
    | some m => (Outcome.response ⟨500, some m, none⟩, db, [DbCall.insertSubmitted doc])
    | none =>
      (Outcome.response ⟨200, none, some ctx.newId⟩,
       { db with submitted := db.submitted ++ [doc] }, [DbCall.insertSubmitted doc])
  | Route.patchSubmitted =>
    let om := valOf req.bObtainedMarks
    let fb := valOf req.bFeedback
    let call := DbCall.updateSubmitted req.paramId om fb ctx.now
    match ctx.dbErr with
    | some m => (Outcome.response ⟨500, some m, none⟩, db, [call])
    | none =>
      let r := updateOneSub req.paramId (applyPatchSub om fb ctx.now) db.submitted
      (Outcome.response ⟨200, none, none⟩, { db with submitted := r.1 }, [call])
  | Route.getPendingSubmitted =>
    match req.qEmail with
    | none => (Outcome.response ⟨400, some "Email is required", none⟩, db, [])
    | some email =>
      if email == "" then
        (Outcome.response ⟨400, some "Email is required", none⟩, db, [])
      else
        match ctx.dbErr with
        | some m =>
          (Outcome.response ⟨500, some m, none⟩, db, [DbCall.findPendingSubmitted email])
        | none =>
          (Outcome.response ⟨200, none, none⟩, db, [DbCall.findPendingSubmitted email])

/-- Handle one request: run the `verifyToken` middleware when the route is
registered with it, then the route's handler. -/
def handle (ctx : Ctx) (route : Route) (req : Request) (db : DB) :
    Outcome × DB × List DbCall :=
  if requiresAuth route then
    match verifyToken ctx.verify req.authHeader with
    | Auth.unauthorized =>
      (Outcome.response ⟨401, some "Unauthorized", none⟩, db, [])
    | Auth.forbidden =>
      (Outcome.response ⟨403, some "Forbidden", none⟩, db, [])
    | Auth.ok _ => handleCore ctx route req db
  else handleCore ctx route req db

/-! ## Resource / operation classification of database calls -/

/-- The four resources the spec names: assignments, submissions, reviews and
the leaderboard. -/
inductive Res where
  | assignments
  | reviews
  | submitted
  | leaderboard
  deriving DecidableEq

/-- The CRUD operation kinds. -/
inductive Op where
  | create
  | read
  | update
  | del
  deriving DecidableEq

/-- The resource a database call operates on. -/
def callRes : DbCall → Res
  | DbCall.findReviews _ _ => Res.reviews
  | DbCall.insertReview _ => Res.reviews
  | DbCall.findAssignments _ => Res.assignments
  | DbCall.findOneAssignment _ => Res.assignments
  | DbCall.insertAssignment _ => Res.assignments
  | DbCall.updateAssignment _ _ _ _ _ _ _ => Res.assignments
  | DbCall.deleteAssignment _ => Res.assignments
  | DbCall.aggregateLeaderboard _ _ => Res.leaderboard
  | DbCall.findSubmittedByEmail _ => Res.submitted
  | DbCall.insertSubmitted _ => Res.submitted
  | DbCall.updateSubmitted _ _ _ _ => Res.submitted
  | DbCall.findPendingSubmitted _ => Res.submitted

/-- The CRUD kind of a database call. -/
def callOp : DbCall → Op
  | DbCall.findReviews _ _ => Op.read
  | DbCall.insertReview _ => Op.create
  | DbCall.findAssignments _ => Op.read
  | DbCall.findOneAssignment _ => Op.read
  | DbCall.insertAssignment _ => Op.create
  | DbCall.updateAssignment _ _ _ _ _ _ _ => Op.update
  | DbCall.deleteAssignment _ => Op.del
  | DbCall.aggregateLeaderboard _ _ => Op.read
  | DbCall.findSubmittedByEmail _ => Op.read
  | DbCall.insertSubmitted _ => Op.create
  | DbCall.updateSubmitted _ _ _ _ => Op.update
  | DbCall.findPendingSubmitted _ => Op.read

/-- Some reachable execution of some route issues a database call of the
given resource and operation kind. -/
def performs (res : Res) (op : Op) : Prop :=
  ∃ r ctx req db c,
    c ∈ (handle ctx r req db).2.2 ∧ callRes c = res ∧ callOp c = op

/-! ## Predicates for the authentication claim -/

/-- An `Authorization` header the middleware rejects with 401: absent, or not
starting with `"Bearer "`. -/
def malformedAuth (a : Option String) : Prop :=
  a = none ∨ ∃ h, a = some h ∧ ¬ ("Bearer ".toList.isPrefixOf h.toList)

/-- A well-formed bearer header whose token the verifier rejects (403). -/
def failedVerify (ctx : Ctx) (a : Option String) : Prop :=
  ∃ h, a = some h ∧ "Bearer ".toList.isPrefixOf h.toList ∧
    ctx.verify (bearerToken h) = none

/-! ## The status invariant of submitted assignments -/

/-- The `status` field of a submission is `"pending"` or `"completed"`. -/
def statusOk (d : SubmissionDoc) : Prop :=
  objGet "status" d.fields = some (Value.str "pending") ∨
    objGet "status" d.fields = some (Value.str "completed")

/-! ## The filter of GET /assignments as the spec sentence reads -/

/-- Modelled from the spec sentence of the claim (not from the code): the
filter "built exactly from the query parameters", carrying the `difficulty`
equality whenever the parameter is present and the title regex whenever
`search` is present, with no allowance for empty values. -/
def claimedFilter (difficulty search : Option String) : AssignFilter :=
  { difficulty := difficulty, titleRegex := search }

/-! ## Concrete fixtures used by witnesses and counterexamples -/

/-- An assignment document with every field absent. -/
def doc0 : AssignmentDoc := ⟨0, none, none, none, none, none, none, none, none, []⟩

/-- A request with no header, no query, an empty body. -/
def req0 : Request :=
  { authHeader := none, paramId := 1, qDifficulty := none, qSearch := none,
    qEmail := none, qLimit := none, qPage := none, bName := none, bImage := none,
    bEmail := none, bText := none, bTitle := none, bDescription := none,
    bMarks := none, bThumbnail := none, bDifficulty := none, bDueDate := none,
    bObtainedMarks := none, bFeedback := none, bAssignment := doc0, bSubmitted := [] }

/-- The same request with a bearer token the verifier accepts. -/
def reqAuth : Request := { req0 with authHeader := some "Bearer tok" }

/-- A context whose verifier accepts every token and whose store succeeds. -/
def ctx0 : Ctx := ⟨5, 42, fun _ => some "user", none⟩

/-- A context whose verifier accepts every token but whose store throws
`"boom"` on any call. -/
def ctxBoom : Ctx := { ctx0 with dbErr := some "boom" }

/-- A context whose verifier rejects every token. -/
def ctxReject : Ctx := { ctx0 with verify := fun _ => none }

/-- The empty database. -/
def db0 : DB := ⟨[], [], []⟩

/-- An assignment owned by `a@b.c`, with an extra field in `rest`. -/
def aDoc : AssignmentDoc :=
  { doc0 with
    id := 1
    title := some "Old"
    creatorEmail := some "a@b.c"
    creatorName := some "Alice"
    rest := [("extra", Value.str "keep")] }

/-- A database holding just `aDoc`. -/
def dbA : DB := { db0 with assignments := [aDoc] }

/-- An authenticated delete request for assignment 1 by its owner. -/
def reqDel : Request := { reqAuth with paramId := 1, qEmail := some "a@b.c" }

/-- An authenticated put request for assignment 1 with a new title. -/
def reqPut : Request := { reqAuth with paramId := 1, bTitle := some "New" }

/-- A valid review-posting request body. -/
def reqReview : Request :=
  { req0 with bName := some "Nia", bEmail := some "n@x.y", bText := some "good" }

/-- A review request whose three checked fields are present but `name` is
the empty string. -/
def reqC6 : Request :=
  { req0 with bName := some "", bEmail := some "e@x.y", bText := some "hi" }

/-- A GET /assignments request whose `difficulty` parameter is present but
empty. -/
def reqEmptyDiff : Request := { req0 with qDifficulty := some "" }


/-! ## Helper lemmas -/

-- Handling a request either stops at the middleware (401/403, no state
-- change, no calls) or runs the route's core handler.
theorem handle_cases (ctx : Ctx) (r : Route) (req : Request) (db : DB) :
    handle ctx r req db = (Outcome.response ⟨401, some "Unauthorized", none⟩, db, []) ∨
      handle ctx r req db = (Outcome.response ⟨403, some "Forbidden", none⟩, db, []) ∨
      handle ctx r req db = handleCore ctx r req db := by
  unfold handle
  split
  · cases verifyToken ctx.verify req.authHeader <;> simp
  · simp

-- Every core handler issues at most two calls, and at most one unless the
-- route is the delete route.
theorem handleCore_calls (ctx : Ctx) (r : Route) (req : Request) (db : DB) :
    ((handleCore ctx r req db).2.2).length ≤ 2 ∧
      (r ≠ Route.deleteAssignment → ((handleCore ctx r req db).2.2).length ≤ 1) := by
  cases r <;> simp only [handleCore] <;> (repeat' split) <;> simp_all

/-- C1 (amended): handling one request issues at most two database calls, and
every route other than DELETE /assignments/:id issues at most one. -/
theorem c1_route_calls (ctx : Ctx) (r : Route) (req : Request) (db : DB) :
    ((handle ctx r req db).2.2).length ≤ 2 ∧
      (r ≠ Route.deleteAssignment → ((handle ctx r req db).2.2).length ≤ 1) := by
  rcases handle_cases ctx r req db with h | h | h <;> rw [h]
  · simp
  · simp
  · exact handleCore_calls ctx r req db

/-- C1 counterexample: an owner's DELETE /assignments/:id request issues two
database calls (a findOne, then a deleteOne), not exactly one. -/
theorem c1_counterexample :
    (handle ctx0 Route.deleteAssignment reqDel dbA).2.2 =
      [DbCall.findOneAssignment 1, DbCall.deleteAssignment 1] ∧
      ((handle ctx0 Route.deleteAssignment reqDel dbA).2.2).length ≠ 1 := by decide

/-- Witness for `c1_route_calls` at GET /reviews. -/
theorem c1_route_calls_witness :
    Route.getReviews ≠ Route.deleteAssignment ∧
      ((handle ctx0 Route.getReviews req0 db0).2.2).length ≤ 1 :=
  ⟨by decide, (c1_route_calls ctx0 Route.getReviews req0 db0).2 (by decide)⟩

/-- C2 (amended): all three assignment-mutating routes and the four
submitted-assignment routes run the verifyToken middleware, which answers 401
on a missing or non-Bearer header and 403 on a failing token, in both cases
touching neither the store nor the database state; the reviews routes,
GET /assignments, GET /assignment/:id and GET /leaderboard have no
authentication. -/
theorem c2_auth_gate (ctx : Ctx) (r : Route) (req : Request) (db : DB) :
    (requiresAuth r = true → malformedAuth req.authHeader →
        handle ctx r req db = (Outcome.response ⟨401, some "Unauthorized", none⟩, db, [])) ∧
      (requiresAuth r = true → failedVerify ctx req.authHeader →
        handle ctx r req db = (Outcome.response ⟨403, some "Forbidden", none⟩, db, [])) ∧
      (requiresAuth Route.postAssignments = true ∧ requiresAuth Route.putAssignment = true ∧
        requiresAuth Route.deleteAssignment = true ∧ requiresAuth Route.getSubmitted = true ∧
        requiresAuth Route.postSubmitted = true ∧ requiresAuth Route.patchSubmitted = true ∧
        requiresAuth Route.getPendingSubmitted = true) ∧
      (requiresAuth Route.root = false ∧ requiresAuth Route.postReviews = false ∧
        requiresAuth Route.getReviews = false ∧ requiresAuth Route.getAssignments = false ∧
        requiresAuth Route.getAssignment = false ∧ requiresAuth Route.getLeaderboard = false) := by
  refine ⟨?_, ?_, by decide, by decide⟩
  · intro hr hm
    have hv : verifyToken ctx.verify req.authHeader = Auth.unauthorized := by
      rcases hm with ha | ⟨h, ha, hp⟩
      · rw [ha]; rfl
      · rw [ha]
        simp only [verifyToken]
        rw [if_neg hp]
    simp [handle, hr, hv]
  · intro hr hf
    obtain ⟨h, ha, hp, hnv⟩ := hf
    have hv : verifyToken ctx.verify req.authHeader = Auth.forbidden := by
      rw [ha]
      simp only [verifyToken]
      rw [if_pos hp, hnv]
    simp [handle, hr, hv]

/-- C2 counterexample: a GET /reviews request with no Authorization header is
not answered 401; it reaches the store (a find call is issued). -/
theorem c2_counterexample :
    req0.authHeader = none ∧
      handle ctx0 Route.getReviews req0 db0 =
        (Outcome.response ⟨200, none, none⟩, db0, [DbCall.findReviews 0 12]) ∧
      (handle ctx0 Route.getReviews req0 db0).2.2 ≠ [] := by decide

/-- Witness for `c2_auth_gate`: a missing header gives 401 and a rejected
token gives 403 on POST /assignments, with no database call. -/
theorem c2_auth_gate_witness :
    handle ctx0 Route.postAssignments req0 db0 =
        (Outcome.response ⟨401, some "Unauthorized", none⟩, db0, []) ∧
      handle ctxReject Route.postAssignments reqAuth db0 =
        (Outcome.response ⟨403, some "Forbidden", none⟩, db0, []) :=
  ⟨(c2_auth_gate ctx0 Route.postAssignments req0 db0).1 rfl (Or.inl rfl),
   (c2_auth_gate ctxReject Route.postAssignments reqAuth db0).2.1 rfl
     ⟨"Bearer tok", rfl, by decide, rfl⟩⟩

/-- C3 (amended): when the store throws, the database state is unchanged and
every route except GET /reviews and GET /leaderboard that attempted a call
responds 500 with the error's message; those two let the error escape
unhandled (they have no try/catch). -/
theorem c3_db_error (ctx : Ctx) (r : Route) (req : Request) (db : DB) (m : String)
    (hm : ctx.dbErr = some m) :
    (handle ctx r req db).2.1 = db ∧
      ((handle ctx r req db).2.2 ≠ [] →
        ((r = Route.getReviews ∨ r = Route.getLeaderboard) →
            (handle ctx r req db).1 = Outcome.escaped m) ∧
          (¬(r = Route.getReviews ∨ r = Route.getLeaderboard) →
            (handle ctx r req db).1 = Outcome.response ⟨500, some m, none⟩)) := by
  rcases handle_cases ctx r req db with h | h | h <;> rw [h]
  · simp
  · simp
  · cases r <;> simp only [handleCore] <;> (repeat' split) <;> simp_all

/-- C3 counterexample: a database error in GET /reviews escapes the handler
unhandled instead of producing a 500 response. -/
theorem c3_counterexample :
    handle ctxBoom Route.getReviews req0 db0 =
        (Outcome.escaped "boom", db0, [DbCall.findReviews 0 12]) ∧
      (handle ctxBoom Route.getReviews req0 db0).1 ≠
        Outcome.response ⟨500, some "boom", none⟩ := by decide

/-- Witness for `c3_db_error` at GET /assignments. -/
theorem c3_db_error_witness :
    (handle ctxBoom Route.getAssignments req0 db0).2.1 = db0 ∧
      (handle ctxBoom Route.getAssignments req0 db0).1 =
        Outcome.response ⟨500, some "boom", none⟩ :=
  ⟨(c3_db_error ctxBoom Route.getAssignments req0 db0 "boom" rfl).1,
   ((c3_db_error ctxBoom Route.getAssignments req0 db0 "boom" rfl).2 (by decide)).2
     (by decide)⟩

-- A delete call can only target the assignments collection.
theorem callOp_del_assignments (c : DbCall) :
    callOp c = Op.del → callRes c = Res.assignments := by
  cases c <;> simp [callOp, callRes]

-- Leaderboard calls are reads.
theorem callRes_leaderboard_read (c : DbCall) :
    callRes c = Res.leaderboard → callOp c = Op.read := by
  cases c <;> simp [callOp, callRes]

-- Review calls are reads or creates.
theorem callRes_reviews_ops (c : DbCall) :
    callRes c = Res.reviews → callOp c = Op.read ∨ callOp c = Op.create := by
  cases c <;> simp [callOp, callRes]

-- A resource/operation pair no call matches is not performed by any route.
theorem not_performs_of (res : Res) (op : Op)
    (h : ∀ c : DbCall, callRes c = res → callOp c ≠ op) : ¬ performs res op := by
  rintro ⟨r, ctx, req, db, c, hc, hres, hop⟩
  exact h c hres hop

/-- C4 counterexample: no route ever issues a delete on the reviews
collection, so reviews do not have all four CRUD operations. -/
theorem c4_counterexample : ¬ performs Res.reviews Op.del :=
  not_performs_of _ _ (fun c hres hop => by
    have := callOp_del_assignments c hop
    rw [hres] at this
    exact Res.noConfusion this)

/-- C4 (amended): assignments have create, read, update and delete routes;
reviews have only create and read; submitted assignments have create, read
and update but no delete; the leaderboard has only read (an aggregation). -/
theorem c4_crud_coverage :
    performs Res.assignments Op.create ∧ performs Res.assignments Op.read ∧
      performs Res.assignments Op.update ∧ performs Res.assignments Op.del ∧
      performs Res.reviews Op.create ∧ performs Res.reviews Op.read ∧
      performs Res.submitted Op.create ∧ performs Res.submitted Op.read ∧
      performs Res.submitted Op.update ∧ performs Res.leaderboard Op.read ∧
      ¬ performs Res.reviews Op.update ∧ ¬ performs Res.submitted Op.del ∧
      ¬ performs Res.leaderboard Op.create ∧ ¬ performs Res.leaderboard Op.update ∧
      ¬ performs Res.leaderboard Op.del := by
  refine ⟨⟨Route.postAssignments, ctx0, reqAuth, db0,
      DbCall.insertAssignment { doc0 with id := 42 }, by decide, rfl, rfl⟩,
    ⟨Route.getAssignments, ctx0, req0, db0,
      DbCall.findAssignments { difficulty := none, titleRegex := none }, by decide, rfl, rfl⟩,
    ⟨Route.putAssignment, ctx0, reqPut, dbA,
      DbCall.updateAssignment 1 (some "New") none none none none none, by decide, rfl, rfl⟩,
    ⟨Route.deleteAssignment, ctx0, reqDel, dbA,
      DbCall.deleteAssignment 1, by decide, rfl, rfl⟩,
    ⟨Route.postReviews, ctx0, reqReview, db0,
      DbCall.insertReview ⟨42, some "Nia", none, some "n@x.y", some "good", 5⟩,
      by decide, rfl, rfl⟩,
    ⟨Route.getReviews, ctx0, req0, db0, DbCall.findReviews 0 12, by decide, rfl, rfl⟩,
    ⟨Route.postSubmitted, ctx0, reqAuth, db0,
      DbCall.insertSubmitted (mkSubmission 42 [] 5), by decide, rfl, rfl⟩,
    ⟨Route.getSubmitted, ctx0, reqDel, db0,
      DbCall.findSubmittedByEmail "a@b.c", by decide, rfl, rfl⟩,
    ⟨Route.patchSubmitted, ctx0, reqAuth, db0,
      DbCall.updateSubmitted 1 Value.undef Value.undef 5, by decide, rfl, rfl⟩,
    ⟨Route.getLeaderboard, ctx0, req0, db0,
      DbCall.aggregateLeaderboard 0 10, by decide, rfl, rfl⟩,
    not_performs_of _ _ (fun c hres hop => by
      rcases callRes_reviews_ops c hres with h | h <;> rw [hop] at h <;> exact Op.noConfusion h),
    not_performs_of _ _ (fun c hres hop => by
      have := callOp_del_assignments c hop
      rw [hres] at this
      exact Res.noConfusion this),
    not_performs_of _ _ (fun c hres hop => by
      have := callRes_leaderboard_read c hres
      rw [hop] at this
      exact Op.noConfusion this),
    not_performs_of _ _ (fun c hres hop => by
      have := callRes_leaderboard_read c hres
      rw [hop] at this
      exact Op.noConfusion this),
    not_performs_of _ _ (fun c hres hop => by
      have := callRes_leaderboard_read c hres
      rw [hop] at this
      exact Op.noConfusion this)⟩

/-- C5 (amended): the GET /assignments handler forwards exactly
`buildFilter difficulty search` to the store, where a present NON-EMPTY
`difficulty` becomes an equality constraint, a present non-empty `search`
becomes the case-insensitive title regex, and absent or empty parameters
contribute nothing. -/
theorem c5_filter (ctx : Ctx) (req : Request) (db : DB) :
    (handle ctx Route.getAssignments req db).2.2 =
        [DbCall.findAssignments (buildFilter req.qDifficulty req.qSearch)] ∧
      (∀ d s, truthyS d = true → (buildFilter d s).difficulty = d) ∧
      (∀ d s, truthyS s = true → (buildFilter d s).titleRegex = s) ∧
      (∀ d s, truthyS d = false → (buildFilter d s).difficulty = none) ∧
      (∀ d s, truthyS s = false → (buildFilter d s).titleRegex = none) ∧
      buildFilter none none = { difficulty := none, titleRegex := none } := by
  refine ⟨?_, ?_, ?_, ?_, ?_, rfl⟩
  · cases hd : ctx.dbErr <;> simp [handle, requiresAuth, handleCore, hd]
  · intro d s hd
    cases hs : truthyS s <;> simp [buildFilter, hd, hs]
  · intro d s hs
    cases hd : truthyS d <;> simp [buildFilter, hd, hs]
  · intro d s hd
    cases hs : truthyS s <;> simp [buildFilter, hd, hs]
  · intro d s hs
    cases hd : truthyS d <;> simp [buildFilter, hd, hs]

/-- C5 counterexample: with `difficulty` present but empty (`?difficulty=`),
the forwarded filter is empty, not an equality constraint on `difficulty` as
the claim's reading of "present" requires. -/
theorem c5_counterexample :
    reqEmptyDiff.qDifficulty = some "" ∧
      (handle ctx0 Route.getAssignments reqEmptyDiff db0).2.2 =
        [DbCall.findAssignments { difficulty := none, titleRegex := none }] ∧
      buildFilter reqEmptyDiff.qDifficulty reqEmptyDiff.qSearch ≠
        claimedFilter reqEmptyDiff.qDifficulty reqEmptyDiff.qSearch := by decide

/-- Witness for `c5_filter`: a non-empty difficulty is forwarded as an
equality constraint, an empty one is dropped. -/
theorem c5_filter_witness :
    truthyS (some "hard") = true ∧
      (buildFilter (some "hard") none).difficulty = some "hard" ∧
      truthyS (some "") = false ∧
      (buildFilter (some "") none).difficulty = none :=
  ⟨by decide, (c5_filter ctx0 req0 db0).2.1 (some "hard") none (by decide), by decide,
    (c5_filter ctx0 req0 db0).2.2.2.1 (some "") none (by decide)⟩

/-- C6 (amended): POST /reviews answers 400 and inserts nothing when `name`,
`email` or `text` is missing OR EMPTY; when all three are non-empty it inserts
exactly one document carrying name, image, email, text and the creation
timestamp and answers 201 with the inserted id. -/
theorem c6_post_review (ctx : Ctx) (req : Request) (db : DB) (he : ctx.dbErr = none) :
    ((truthyS req.bName = false ∨ truthyS req.bEmail = false ∨ truthyS req.bText = false) →
        handle ctx Route.postReviews req db =
          (Outcome.response ⟨400, some "Missing fields", none⟩, db, [])) ∧
      (truthyS req.bName = true → truthyS req.bEmail = true → truthyS req.bText = true →
        handle ctx Route.postReviews req db =
          (Outcome.response ⟨201, some "Review added successfully", some ctx.newId⟩,
           { db with reviews := db.reviews ++
               [⟨ctx.newId, req.bName, req.bImage, req.bEmail, req.bText, ctx.now⟩] },
           [DbCall.insertReview ⟨ctx.newId, req.bName, req.bImage, req.bEmail, req.bText, ctx.now⟩])) := by
  constructor
  · intro hm
    rcases hm with h | h | h <;> simp [handle, requiresAuth, handleCore, h]
  · intro h1 h2 h3
    simp [handle, requiresAuth, handleCore, h1, h2, h3, he]

/-- C6 counterexample: all three checked fields are present in the body, yet
the empty `name` is rejected with 400 and nothing is inserted. -/
theorem c6_counterexample :
    reqC6.bName ≠ none ∧ reqC6.bEmail ≠ none ∧ reqC6.bText ≠ none ∧
      handle ctx0 Route.postReviews reqC6 db0 =
        (Outcome.response ⟨400, some "Missing fields", none⟩, db0, []) := by decide

/-- Witness for `c6_post_review`: the empty body is rejected with 400 and a
full body is inserted with a 201 response. -/
theorem c6_post_review_witness :
    handle ctx0 Route.postReviews req0 db0 =
        (Outcome.response ⟨400, some "Missing fields", none⟩, db0, []) ∧
      handle ctx0 Route.postReviews reqReview db0 =
        (Outcome.response ⟨201, some "Review added successfully", some 42⟩,
         { db0 with reviews := [⟨42, some "Nia", none, some "n@x.y", some "good", 5⟩] },
         [DbCall.insertReview ⟨42, some "Nia", none, some "n@x.y", some "good", 5⟩]) :=
  ⟨(c6_post_review ctx0 req0 db0 rfl).1 (Or.inl (by decide)),
    (c6_post_review ctx0 reqReview db0 rfl).2 (by decide) (by decide) (by decide)⟩

-- A successful findOne splits the collection at the first id match.
theorem findOneAssign_split (pid : Nat) (l : List AssignmentDoc) (a : AssignmentDoc)
    (h : findOneAssign pid l = some a) :
    ∃ pre post, l = pre ++ a :: post ∧
      (∀ b ∈ pre, (b.id == pid) = false) ∧ (a.id == pid) = true := by
  induction l with
  | nil => simp [findOneAssign] at h
  | cons x xs ih =>
    by_cases hx : (x.id == pid) = true
    · have hfind : findOneAssign pid (x :: xs) = some x := by
        simp [findOneAssign, List.find?, hx]
      rw [h] at hfind
      obtain rfl : x = a := by
        injection hfind with hv
        exact hv.symm
      exact ⟨[], xs, rfl, by simp, hx⟩
    · have hfind : findOneAssign pid (x :: xs) = findOneAssign pid xs := by
        simp [findOneAssign, List.find?, hx]
      rw [hfind] at h
      obtain ⟨pre, post, hl, hpre, ha⟩ := ih h
      exact ⟨x :: pre, post, by rw [hl]; rfl,
        by intro b hb; rcases List.mem_cons.mp hb with rfl | hb
           · exact Bool.eq_false_iff.mpr hx
           · exact hpre b hb, ha⟩

-- deleteOne on a collection split at the first match removes that document.
theorem deleteOneAssign_split (pid : Nat) (a : AssignmentDoc)
    (pre post : List AssignmentDoc)
    (hpre : ∀ b ∈ pre, (b.id == pid) = false) (ha : (a.id == pid) = true) :
    deleteOneAssign pid (pre ++ a :: post) = (pre ++ post, 1) := by
  induction pre with
  | nil => simp [deleteOneAssign, ha]
  | cons x xs ih =>
    have hx := hpre x (by simp)
    have ih' := ih (fun b hb => hpre b (List.mem_cons_of_mem _ hb))
    simp [deleteOneAssign, hx, ih']

-- updateOne on a collection split at the first match rewrites that document.
theorem updateOneAssign_split (pid : Nat) (f : AssignmentDoc → AssignmentDoc)
    (a : AssignmentDoc) (pre post : List AssignmentDoc)
    (hpre : ∀ b ∈ pre, (b.id == pid) = false) (ha : (a.id == pid) = true) :
    updateOneAssign pid f (pre ++ a :: post) =
      (pre ++ f a :: post, if f a == a then 0 else 1) := by
  induction pre with
  | nil => simp [updateOneAssign, ha]
  | cons x xs ih =>
    have hx := hpre x (by simp)
    have ih' := ih (fun b hb => hpre b (List.mem_cons_of_mem _ hb))
    simp [updateOneAssign, hx, ih']

-- updateOne without a match changes nothing and reports modifiedCount 0.
theorem updateOneAssign_nomatch (pid : Nat) (f : AssignmentDoc → AssignmentDoc)
    (l : List AssignmentDoc) (h : findOneAssign pid l = none) :
    updateOneAssign pid f l = (l, 0) := by
  induction l with
  | nil => rfl
  | cons x xs ih =>
    rw [findOneAssign, List.find?_eq_none] at h
    have hx : (x.id == pid) = false := by
      have := h x (by simp)
      exact Bool.eq_false_iff.mpr this
    have hxs : findOneAssign pid xs = none := by
      rw [findOneAssign, List.find?_eq_none]
      intro b hb
      exact h b (by simp [hb])
    simp [updateOneAssign, hx, ih hxs]

/-- C7: DELETE /assignments/:id removes a document only when it exists and
its creator email equals the `email` query parameter; a missing document is
answered 404 and a differing creator 403, in both cases leaving the database
unchanged. -/
theorem c7_delete_guard (ctx : Ctx) (req : Request) (db : DB) (u : String)
    (hu : verifyToken ctx.verify req.authHeader = Auth.ok u) (he : ctx.dbErr = none) :
    (findOneAssign req.paramId db.assignments = none →
        handle ctx Route.deleteAssignment req db =
          (Outcome.response ⟨404, some "Assignment not found", none⟩, db,
           [DbCall.findOneAssignment req.paramId])) ∧
      (∀ a, findOneAssign req.paramId db.assignments = some a →
        a.creatorEmail ≠ req.qEmail →
        handle ctx Route.deleteAssignment req db =
          (Outcome.response ⟨403, some "You are not authorized to delete this assignment.", none⟩,
           db, [DbCall.findOneAssignment req.paramId])) ∧
      (∀ a, findOneAssign req.paramId db.assignments = some a →
        a.creatorEmail = req.qEmail →
        ∃ pre post,
          db.assignments = pre ++ a :: post ∧
            (∀ b ∈ pre, b.id ≠ req.paramId) ∧ a.id = req.paramId ∧
            handle ctx Route.deleteAssignment req db =
              (Outcome.response ⟨200, none, none⟩,
               { db with assignments := pre ++ post },
               [DbCall.findOneAssignment req.paramId,
                DbCall.deleteAssignment req.paramId])) := by
  have hh : handle ctx Route.deleteAssignment req db =
      handleCore ctx Route.deleteAssignment req db := by
    simp [handle, requiresAuth, hu]
  refine ⟨?_, ?_, ?_⟩
  · intro hf
    rw [hh]
    simp [handleCore, he, hf]
  · intro a hf hne
    rw [hh]
    simp [handleCore, he, hf, bne_iff_ne, hne]
  · intro a hf heq
    obtain ⟨pre, post, hl, hpre, ha⟩ := findOneAssign_split _ _ _ hf
    refine ⟨pre, post, hl, ?_, by simpa using ha, ?_⟩
    · intro b hb
      simpa using hpre b hb
    · rw [hh]
      have hdel : deleteOneAssign req.paramId db.assignments = (pre ++ post, 1) := by
        rw [hl]
        exact deleteOneAssign_split _ _ _ _ hpre ha
      simp [handleCore, he, hf, bne_iff_ne, heq, hdel]

/-- Witness for `c7_delete_guard`: deleting a missing assignment from the
empty database answers 404 and changes nothing. -/
theorem c7_delete_guard_witness :
    handle ctx0 Route.deleteAssignment reqDel db0 =
      (Outcome.response ⟨404, some "Assignment not found", none⟩, db0,
       [DbCall.findOneAssignment 1]) :=
  (c7_delete_guard ctx0 reqDel db0 "user" (by decide) rfl).1 (by decide)

/-- C8: when PUT /assignments/:id reports success, the first document whose
id matches is replaced by a copy in which exactly the six fields title,
description, marks, thumbnail, difficulty and dueDate come from the body —
its id, creator and every other field (`rest`) are unchanged — every other
assignment document is untouched, and the other collections are unchanged. -/
theorem c8_put_frame (ctx : Ctx) (req : Request) (db : DB) (u : String)
    (hu : verifyToken ctx.verify req.authHeader = Auth.ok u) (he : ctx.dbErr = none)
    (hs : (handle ctx Route.putAssignment req db).1 =
      Outcome.response ⟨200, some "Assignment updated successfully", none⟩) :
    ∃ pre a post,
      db.assignments = pre ++ a :: post ∧
        (∀ b ∈ pre, b.id ≠ req.paramId) ∧ a.id = req.paramId ∧
        (handle ctx Route.putAssignment req db).2.1.assignments =
          pre ++ applyPutSet req.bTitle req.bDescription req.bMarks req.bThumbnail
            req.bDifficulty req.bDueDate a :: post ∧
        (applyPutSet req.bTitle req.bDescription req.bMarks req.bThumbnail
            req.bDifficulty req.bDueDate a).id = a.id ∧
        (applyPutSet req.bTitle req.bDescription req.bMarks req.bThumbnail
            req.bDifficulty req.bDueDate a).creatorEmail = a.creatorEmail ∧
        (applyPutSet req.bTitle req.bDescription req.bMarks req.bThumbnail
            req.bDifficulty req.bDueDate a).creatorName = a.creatorName ∧
        (applyPutSet req.bTitle req.bDescription req.bMarks req.bThumbnail
            req.bDifficulty req.bDueDate a).rest = a.rest ∧
        (applyPutSet req.bTitle req.bDescription req.bMarks req.bThumbnail
            req.bDifficulty req.bDueDate a).title = req.bTitle ∧
        (applyPutSet req.bTitle req.bDescription req.bMarks req.bThumbnail
            req.bDifficulty req.bDueDate a).description = req.bDescription ∧
        (applyPutSet req.bTitle req.bDescription req.bMarks req.bThumbnail
            req.bDifficulty req.bDueDate a).marks = req.bMarks ∧
        (applyPutSet req.bTitle req.bDescription req.bMarks req.bThumbnail
            req.bDifficulty req.bDueDate a).thumbnail = req.bThumbnail ∧
        (applyPutSet req.bTitle req.bDescription req.bMarks req.bThumbnail
            req.bDifficulty req.bDueDate a).difficulty = req.bDifficulty ∧
        (applyPutSet req.bTitle req.bDescription req.bMarks req.bThumbnail
            req.bDifficulty req.bDueDate a).dueDate = req.bDueDate ∧
        (handle ctx Route.putAssignment req db).2.1.reviews = db.reviews ∧
        (handle ctx Route.putAssignment req db).2.1.submitted = db.submitted := by
  have hh : handle ctx Route.putAssignment req db =
      handleCore ctx Route.putAssignment req db := by
    simp [handle, requiresAuth, hu]
  rw [hh] at hs ⊢
  cases hfind : findOneAssign req.paramId db.assignments with
  | none =>
    have hup := updateOneAssign_nomatch req.paramId
      (applyPutSet req.bTitle req.bDescription req.bMarks req.bThumbnail
        req.bDifficulty req.bDueDate) db.assignments hfind
    simp [handleCore, he, hup] at hs
  | some a =>
    obtain ⟨pre, post, hl, hpre, ha⟩ := findOneAssign_split _ _ _ hfind
    have hup := updateOneAssign_split req.paramId
      (applyPutSet req.bTitle req.bDescription req.bMarks req.bThumbnail
        req.bDifficulty req.bDueDate) a pre post hpre ha
    rw [← hl] at hup
    by_cases hch : (applyPutSet req.bTitle req.bDescription req.bMarks req.bThumbnail
        req.bDifficulty req.bDueDate a == a) = true
    · rw [hch] at hup
      simp [handleCore, he, hup] at hs
    · have hch' : (applyPutSet req.bTitle req.bDescription req.bMarks req.bThumbnail
          req.bDifficulty req.bDueDate a == a) = false := Bool.eq_false_iff.mpr hch
      rw [hch'] at hup
      refine ⟨pre, a, post, hl, ?_, by simpa using ha, ?_, rfl, rfl, rfl, rfl, rfl,
        rfl, rfl, rfl, rfl, rfl, ?_, ?_⟩
      · intro b hb
        simpa using hpre b hb
      · simp [handleCore, he, hup]
      · simp [handleCore, he, hup]
      · simp [handleCore, he, hup]

/-- Witness for `c8_put_frame`: after the owner's successful put of a new
title on `dbA`, the single document keeps its creator and extra field. -/
theorem c8_put_frame_witness :
    ∃ pre a post,
      dbA.assignments = pre ++ a :: post ∧
        (∀ b ∈ pre, b.id ≠ reqPut.paramId) ∧ a.id = reqPut.paramId ∧
        (handle ctx0 Route.putAssignment reqPut dbA).2.1.assignments =
          pre ++ applyPutSet reqPut.bTitle reqPut.bDescription reqPut.bMarks
            reqPut.bThumbnail reqPut.bDifficulty reqPut.bDueDate a :: post ∧
        (applyPutSet reqPut.bTitle reqPut.bDescription reqPut.bMarks reqPut.bThumbnail
            reqPut.bDifficulty reqPut.bDueDate a).id = a.id ∧
        (applyPutSet reqPut.bTitle reqPut.bDescription reqPut.bMarks reqPut.bThumbnail
            reqPut.bDifficulty reqPut.bDueDate a).creatorEmail = a.creatorEmail ∧
        (applyPutSet reqPut.bTitle reqPut.bDescription reqPut.bMarks reqPut.bThumbnail
            reqPut.bDifficulty reqPut.bDueDate a).creatorName = a.creatorName ∧
        (applyPutSet reqPut.bTitle reqPut.bDescription reqPut.bMarks reqPut.bThumbnail
            reqPut.bDifficulty reqPut.bDueDate a).rest = a.rest ∧
        (applyPutSet reqPut.bTitle reqPut.bDescription reqPut.bMarks reqPut.bThumbnail
            reqPut.bDifficulty reqPut.bDueDate a).title = reqPut.bTitle ∧
        (applyPutSet reqPut.bTitle reqPut.bDescription reqPut.bMarks reqPut.bThumbnail
            reqPut.bDifficulty reqPut.bDueDate a).description = reqPut.bDescription ∧
        (applyPutSet reqPut.bTitle reqPut.bDescription reqPut.bMarks reqPut.bThumbnail
            reqPut.bDifficulty reqPut.bDueDate a).marks = reqPut.bMarks ∧
        (applyPutSet reqPut.bTitle reqPut.bDescription reqPut.bMarks reqPut.bThumbnail
            reqPut.bDifficulty reqPut.bDueDate a).thumbnail = reqPut.bThumbnail ∧
        (applyPutSet reqPut.bTitle reqPut.bDescription reqPut.bMarks reqPut.bThumbnail
            reqPut.bDifficulty reqPut.bDueDate a).difficulty = reqPut.bDifficulty ∧
        (applyPutSet reqPut.bTitle reqPut.bDescription reqPut.bMarks reqPut.bThumbnail
            reqPut.bDifficulty reqPut.bDueDate a).dueDate = reqPut.bDueDate ∧
        (handle ctx0 Route.putAssignment reqPut dbA).2.1.reviews = dbA.reviews ∧
        (handle ctx0 Route.putAssignment reqPut dbA).2.1.submitted = dbA.submitted :=
  c8_put_frame ctx0 reqPut dbA "user" (by decide) rfl (by decide)

-- Object lookup across an append: a binding in the right part wins.
theorem objGet_append (k : String) (l m : List (String × Value)) :
    objGet k (l ++ m) =
      match objGet k m with
      | some w => some w
      | none => objGet k l := by
  induction l with
  | nil => cases hm : objGet k m <;> simp [objGet, hm]
  | cons p ps ih =>
    obtain ⟨k', v⟩ := p
    simp only [List.cons_append, objGet]
    cases hm : objGet k m <;> cases hp : objGet k ps <;> simp [ih, hm, hp]

-- The inserted submission document always carries status "pending",
-- whatever the spread body contained.
theorem mkSubmission_status (n : Nat) (data : List (String × Value)) (t : Nat) :
    objGet "status" (mkSubmission n data t).fields = some (Value.str "pending") := by
  simp [mkSubmission, objGet_append, objGet]

-- The patch $set always leaves status "completed" and stamps markedAt.
theorem applyPatchSub_marks (om fb : Value) (t : Nat) (d : SubmissionDoc) :
    objGet "status" (applyPatchSub om fb t d).fields = some (Value.str "completed") ∧
      objGet "markedAt" (applyPatchSub om fb t d).fields = some (Value.date t) := by
  constructor <;> simp [applyPatchSub, objGet_append, objGet]

-- updateOne preserves a property of every document when the update does.
theorem updateOneSub_mem (pid : Nat) (f : SubmissionDoc → SubmissionDoc)
    (l : List SubmissionDoc) (P : SubmissionDoc → Prop)
    (hl : ∀ d ∈ l, P d) (hf : ∀ d, P (f d)) :
    ∀ d ∈ (updateOneSub pid f l).1, P d := by
  induction l with
  | nil => simp [updateOneSub]
  | cons x xs ih =>
    intro d hd
    by_cases hx : (x.id == pid) = true
    · simp [updateOneSub, hx] at hd
      rcases hd with rfl | hd
      · exact hf x
      · exact hl d (by simp [hd])
    · have hx' : (x.id == pid) = false := Bool.eq_false_iff.mpr hx
      simp [updateOneSub, hx'] at hd
      rcases hd with rfl | hd
      · exact hl d (by simp)
      · exact ih (fun b hb => hl b (by simp [hb])) d hd

/-- C9: every submitted-assignments document the API creates or modifies has
status "pending" or "completed": POST /submitted-assignments inserts with
status "pending" regardless of any status in the spread body and PATCH sets
status "completed" with a markedAt stamp, and every route preserves the
invariant over the whole collection. -/
theorem c9_status_invariant (ctx : Ctx) (r : Route) (req : Request) (db : DB)
    (hinv : ∀ d ∈ db.submitted, statusOk d) :
    (∀ d ∈ (handle ctx r req db).2.1.submitted, statusOk d) ∧
      (∀ n data t, objGet "status" (mkSubmission n data t).fields =
        some (Value.str "pending")) ∧
      (∀ om fb t d, objGet "status" (applyPatchSub om fb t d).fields =
          some (Value.str "completed") ∧
        objGet "markedAt" (applyPatchSub om fb t d).fields = some (Value.date t)) ∧
      ((∃ u, verifyToken ctx.verify req.authHeader = Auth.ok u) → ctx.dbErr = none →
        (handle ctx Route.postSubmitted req db).2.1.submitted =
          db.submitted ++ [mkSubmission ctx.newId req.bSubmitted ctx.now]) := by
  refine ⟨?_, fun n data t => mkSubmission_status n data t,
    fun om fb t d => applyPatchSub_marks om fb t d, ?_⟩
  · rcases handle_cases ctx r req db with h | h | h <;> rw [h]
    · simpa using hinv
    · simpa using hinv
    · cases r
      all_goals try (simp only [handleCore]; (repeat' split) <;> simpa using hinv)
      · -- postSubmitted
        simp only [handleCore]
        split
        · simpa using hinv
        · intro d hd
          simp at hd
          rcases hd with hd | rfl
          · exact hinv d hd
          · exact Or.inl (mkSubmission_status _ _ _)
      · -- patchSubmitted
        simp only [handleCore]
        split
        · simpa using hinv
        · intro d hd
          refine updateOneSub_mem _ _ _ statusOk hinv ?_ d (by simpa using hd)
          intro x
          exact Or.inr (applyPatchSub_marks _ _ _ x).1
  · rintro ⟨u, hu⟩ he
    simp [handle, requiresAuth, hu, handleCore, he]

/-- Witness for `c9_status_invariant`: a body that tries to smuggle
`status: "hacked"` is still inserted as "pending". -/
theorem c9_status_invariant_witness :
    objGet "status" (mkSubmission 7 [("status", Value.str "hacked")] 3).fields =
      some (Value.str "pending") :=
  (c9_status_invariant ctx0 Route.postSubmitted reqAuth db0
      (by intro d hd; simp [db0] at hd)).2.1 7 [("status", Value.str "hacked")] 3
